import Mathlib

/-!
Shallow embedding of the audit-trail pipeline of
`@clean-code-id/nest-sequelize-auditor`.

The embedded code comes from:
  * `src/utils/writeAudit.ts` (the variant with `processValues`,
    `getChangedFields`, `pickFields`, `applyExcludeAndMask`);
  * the hooks module (`attachAuditHooks` variant with `shouldAuditEvent`
    and `globalConfig`);
  * `src/request-context.ts` (the variant whose `updateContext` body is
    empty, marked "Implementation pending") together with the sibling
    variant that implements the merge via `enterWith`.

JavaScript record snapshots (`Record<string, any>`) are modelled as
association lists `List (String × Value)` with JS object semantics:
`values[field]` reads the value or `undefined` when the key is absent
(`jsGet`), `field in values` is key presence (`hasKey`).  JS strict
equality `===` is `strictEq`: primitives by value, objects by reference,
so `Value.obj` carries a reference identifier next to its field contents.
Numbers are modelled as integers (no NaN / floating point is exercised by
the audited code paths under verification).
-/

/-- JavaScript runtime values as they occur in audited snapshots. An
object value carries the heap reference identifier (what `===` compares)
and its own enumerable fields (what structural comparison would see). -/
inductive Value where
  | undef : Value
  | null : Value
  | bool : Bool → Value
  | num : Int → Value
  | str : String → Value
  | obj : Nat → List (String × Value) → Value

/-- Snapshot of a record: the `Record<string, any>` of the source,
as an association list of its own enumerable properties (keys are
unique in a real JS object; none of the membership-level lemmas below
need that invariant). -/
abbrev Snapshot := List (String × Value)

/-- JS strict equality `===`: primitives compare by value, objects by
reference identifier; values of different runtime types are never
strictly equal (`null !== undefined`). -/
def strictEq : Value → Value → Bool
  | Value.undef, Value.undef => true
  | Value.null, Value.null => true
  | Value.bool a, Value.bool b => a == b
  | Value.num a, Value.num b => a == b
  | Value.str a, Value.str b => a == b
  | Value.obj r1 _, Value.obj r2 _ => r1 == r2
  | _, _ => false

mutual
/-- Structural equality of JS values: like `strictEq` on primitives but
compares object contents recursively, ignoring reference identity. -/
def Value.structEq : Value → Value → Bool
  | Value.undef, Value.undef => true
  | Value.null, Value.null => true
  | Value.bool a, Value.bool b => a == b
  | Value.num a, Value.num b => a == b
  | Value.str a, Value.str b => a == b
  | Value.obj _ fs, Value.obj _ gs => fieldsStructEq fs gs
  | _, _ => false

/-- Structural equality of two field lists, pointwise. -/
def fieldsStructEq : List (String × Value) → List (String × Value) → Bool
  | [], [] => true
  | (k1, v1) :: t1, (k2, v2) :: t2 =>
      k1 == k2 && Value.structEq v1 v2 && fieldsStructEq t1 t2
  | _, _ => false
end

/-- Property read `values[field]`: the stored value, or `undefined` when
the key is absent. -/
def jsGet (values : Snapshot) (field : String) : Value :=
  match values.lookup field with
  | some v => v
  | none => Value.undef

/-- Key-presence test `field in values`. -/
def hasKey (values : Snapshot) (field : String) : Bool :=
  (values.lookup field).isSome

/-- Key list of a snapshot (`Object.keys`). -/
def sKeys (values : Snapshot) : List String :=
  values.map Prod.fst

/-- Event kinds, `AuditEvent` enum of `types.ts`. -/
inductive AuditEvent where
  | CREATED : AuditEvent
  | UPDATED : AuditEvent
  | DELETED : AuditEvent
  | RESTORED : AuditEvent
deriving DecidableEq, BEq, Repr

/-- Per-model `AuditConfig` of `types.ts`. The optional `exclude` and
`mask` arrays default to `[]`, which is behaviourally identical to the
source's `undefined` guard (`if (config.exclude) ...` over an absent
list does nothing, exactly like iterating an empty one). -/
structure AuditConfig where
  exclude : List String := []
  mask : List String := []
  auditEvents : Option (List AuditEvent) := none
  onlyDirty : Option Bool := none

/-- Global `AuditModuleOptions`; only the field the audited write path
reads (`onlyDirty`) is modelled. -/
structure AuditModuleOptions where
  onlyDirty : Option Bool := none

/-- Ambient `AuditContext` of `types.ts` (all fields optional). -/
structure AuditContext where
  actorId : Option Value := none
  ip : Option String := none
  userAgent : Option String := none
  url : Option String := none
  tags : Option Snapshot := none

/-- Embedding of `getChangedFields` of `writeAudit.ts`: first loop walks
the fields of `newValues` and pushes every field whose value read from
`oldValues` is not strictly equal (`!==`) to the one read from
`newValues`; second loop pushes fields that exist in `oldValues` but not
in `newValues` and were not already pushed. -/
def getChangedFields (oldValues newValues : Snapshot) : List String :=
  let changedFields :=
    newValues.foldl
      (fun acc kv =>
        if ! strictEq (jsGet oldValues kv.1) (jsGet newValues kv.1) then
          acc ++ [kv.1]
        else acc)
      []
  oldValues.foldl
    (fun acc kv =>
      if ! hasKey newValues kv.1 && ! acc.contains kv.1 then acc ++ [kv.1]
      else acc)
    changedFields

/-- Embedding of `pickFields` of `writeAudit.ts`: builds a snapshot that
keeps, in `fields` order, every listed field that exists in `values`. -/
def pickFields (values : Snapshot) (fields : List String) : Snapshot :=
  fields.foldl
    (fun acc field =>
      if hasKey values field then acc ++ [(field, jsGet values field)]
      else acc)
    []

/-- Embedding of `applyExcludeAndMask` of `writeAudit.ts`: `undefined`
passes through; otherwise every excluded key is deleted from a copy and
then every masked key that still exists is overwritten with the
`***MASKED***` sentinel. -/
def applyExcludeAndMask (values : Option Snapshot) (config : AuditConfig) :
    Option Snapshot :=
  match values with
  | none => none
  | some vs =>
      some
        (((vs.filter (fun kv => ! config.exclude.contains kv.1)).map
          (fun kv =>
            if config.mask.contains kv.1 then (kv.1, Value.str "***MASKED***")
            else kv)))

/-- Effective dirty-only switch of `processValues`:
`config.onlyDirty ?? globalConfig?.onlyDirty ?? false`. -/
def effectiveOnlyDirty (config : AuditConfig)
    (globalConfig : Option AuditModuleOptions) : Bool :=
  match config.onlyDirty with
  | some b => b
  | none =>
      match globalConfig with
      | some g => g.onlyDirty.getD false
      | none => false

/-- Embedding of `processValues` of `writeAudit.ts`: when dirty-only is
active and both snapshots are present, both are reduced to the changed
fields (or replaced by empty objects when nothing changed); afterwards
exclusion and masking are applied to whatever survives. -/
def processValues (oldValues newValues : Option Snapshot)
    (config : AuditConfig) (globalConfig : Option AuditModuleOptions) :
    Option Snapshot × Option Snapshot :=
  let onlyDirty := effectiveOnlyDirty config globalConfig
  let finalValues : Option Snapshot × Option Snapshot :=
    match oldValues, newValues with
    | some ov, some nv =>
        if onlyDirty then
          let changedFields := getChangedFields ov nv
          if changedFields.length > 0 then
            (some (pickFields ov changedFields),
             some (pickFields nv changedFields))
          else
            (some ([] : Snapshot), some ([] : Snapshot))
        else (oldValues, newValues)
    | _, _ => (oldValues, newValues)
  (applyExcludeAndMask finalValues.1 config,
   applyExcludeAndMask finalValues.2 config)

/-- Options object accepted by `writeAudit` (`WriteAuditOptions`). -/
structure WriteAuditOptions where
  event : AuditEvent
  table : String
  recordId : Value
  oldValues : Option Snapshot := none
  newValues : Option Snapshot := none
  context : Option AuditContext := none
  config : Option AuditConfig := none
  globalConfig : Option AuditModuleOptions := none

/-- Row handed to `globalAuditModel.create` by `writeAudit`; `createdAt`
is the write-time clock value (`new Date()`), passed in explicitly. -/
structure AuditEntry where
  event : AuditEvent
  table : String
  recordId : Value
  oldValues : Option Snapshot
  newValues : Option Snapshot
  actorId : Option Value
  ip : Option String
  userAgent : Option String
  url : Option String
  tags : Option Snapshot
  createdAt : Nat

/-- Storage append of the audit model: `globalAuditModel.create`, which
may throw (modelled as `Except`). -/
abbrev CreateFn := AuditEntry → Except String Unit

/-- Result of one `writeAudit` call: skipped because `setAuditModel` was
never called (warn + return), persisted, or persistence threw and the
error was caught and logged. -/
inductive WriteOutcome where
  | notConfigured : WriteOutcome
  | written : AuditEntry → WriteOutcome
  | createFailed : AuditEntry → String → WriteOutcome

/-- Embedding of `writeAudit` of `writeAudit.ts`. The mutable module
global `globalAuditModel` is passed explicitly; the outer `Except` layer
is the exception channel a caller of `writeAudit` would observe, and the
source's try/catch around `globalAuditModel.create` is the match on the
create result. -/
def writeAudit (auditModel : Option CreateFn) (o : WriteAuditOptions)
    (now : Nat) : Except String WriteOutcome :=
  match auditModel with
  | none => Except.ok WriteOutcome.notConfigured
  | some create =>
      let config := o.config.getD {}
      let p := processValues o.oldValues o.newValues config o.globalConfig
      let entry : AuditEntry :=
        { event := o.event
          table := o.table
          recordId := o.recordId
          oldValues := p.1
          newValues := p.2
          actorId := o.context.bind AuditContext.actorId
          ip := o.context.bind AuditContext.ip
          userAgent := o.context.bind AuditContext.userAgent
          url := o.context.bind AuditContext.url
          tags := o.context.bind AuditContext.tags
          createdAt := now }
      match create entry with
      | Except.ok _ => Except.ok (WriteOutcome.written entry)
      | Except.error e => Except.ok (WriteOutcome.createFailed entry e)

/-- Embedding of `shouldAuditEvent` of the hooks module: audit
everything when `auditEvents` is unset or empty, otherwise audit exactly
the listed kinds. -/
def shouldAuditEvent (event : AuditEvent) (config : AuditConfig) : Bool :=
  match config.auditEvents with
  | none => true
  | some evs => if evs.length == 0 then true else evs.contains event

/-- Mutated record instance as seen by a lifecycle hook: its primary
key, `dataValues`, and `_previousDataValues`. -/
structure InstanceData where
  id : Value
  dataValues : Snapshot
  previousDataValues : Snapshot

/-- Embedding of the `afterCreate` callback registered by
`attachAuditHooks`: gate on `shouldAuditEvent`, then call `writeAudit`
with only `newValues` and event kind `created`. `Except.ok none` is the
early return. -/
def afterCreateHook (auditModel : Option CreateFn) (tableName : String)
    (config : AuditConfig) (globalOptions : AuditModuleOptions)
    (inst : InstanceData) (context : Option AuditContext) (now : Nat) :
    Except String (Option WriteOutcome) :=
  if ! shouldAuditEvent AuditEvent.CREATED config then Except.ok none
  else
    match writeAudit auditModel
        { event := AuditEvent.CREATED
          table := tableName
          recordId := inst.id
          newValues := some inst.dataValues
          context := context
          config := some config
          globalConfig := some globalOptions } now with
    | Except.ok r => Except.ok (some r)
    | Except.error e => Except.error e

/-- Embedding of the `afterUpdate` callback of `attachAuditHooks`:
passes `_previousDataValues` as `oldValues` and `dataValues` as
`newValues`, event kind `updated`. -/
def afterUpdateHook (auditModel : Option CreateFn) (tableName : String)
    (config : AuditConfig) (globalOptions : AuditModuleOptions)
    (inst : InstanceData) (context : Option AuditContext) (now : Nat) :
    Except String (Option WriteOutcome) :=
  if ! shouldAuditEvent AuditEvent.UPDATED config then Except.ok none
  else
    match writeAudit auditModel
        { event := AuditEvent.UPDATED
          table := tableName
          recordId := inst.id
          oldValues := some inst.previousDataValues
          newValues := some inst.dataValues
          context := context
          config := some config
          globalConfig := some globalOptions } now with
    | Except.ok r => Except.ok (some r)
    | Except.error e => Except.error e

/-- Embedding of the `afterDestroy` callback of `attachAuditHooks`:
passes only `oldValues`, event kind `deleted`. -/
def afterDestroyHook (auditModel : Option CreateFn) (tableName : String)
    (config : AuditConfig) (globalOptions : AuditModuleOptions)
    (inst : InstanceData) (context : Option AuditContext) (now : Nat) :
    Except String (Option WriteOutcome) :=
  if ! shouldAuditEvent AuditEvent.DELETED config then Except.ok none
  else
    match writeAudit auditModel
        { event := AuditEvent.DELETED
          table := tableName
          recordId := inst.id
          oldValues := some inst.dataValues
          context := context
          config := some config
          globalConfig := some globalOptions } now with
    | Except.ok r => Except.ok (some r)
    | Except.error e => Except.error e

/-- Embedding of the `afterRestore` callback of `attachAuditHooks`:
passes only `newValues`, event kind `restored`. -/
def afterRestoreHook (auditModel : Option CreateFn) (tableName : String)
    (config : AuditConfig) (globalOptions : AuditModuleOptions)
    (inst : InstanceData) (context : Option AuditContext) (now : Nat) :
    Except String (Option WriteOutcome) :=
  if ! shouldAuditEvent AuditEvent.RESTORED config then Except.ok none
  else
    match writeAudit auditModel
        { event := AuditEvent.RESTORED
          table := tableName
          recordId := inst.id
          newValues := some inst.dataValues
          context := context
          config := some config
          globalConfig := some globalOptions } now with
    | Except.ok r => Except.ok (some r)
    | Except.error e => Except.error e

/-- Entry persisted by a `writeAudit` call, when one was persisted. -/
def entryOf : Except String WriteOutcome → Option AuditEntry
  | Except.ok (WriteOutcome.written e) => some e
  | Except.ok (WriteOutcome.createFailed e _) => some e
  | _ => none

/-- Entry actually written (storage append succeeded) by one hook run. -/
def writtenEntry : Except String (Option WriteOutcome) → Option AuditEntry
  | Except.ok (some (WriteOutcome.written e)) => some e
  | _ => none

/-- Merge of JS object spread `\x7b ...currentContext, ...updates \x7d`
on two contexts whose absent fields are `none`. -/
def mergeContext (currentContext updates : AuditContext) : AuditContext :=
  { actorId := (updates.actorId).orElse fun _ => currentContext.actorId
    ip := (updates.ip).orElse fun _ => currentContext.ip
    userAgent := (updates.userAgent).orElse fun _ => currentContext.userAgent
    url := (updates.url).orElse fun _ => currentContext.url
    tags := (updates.tags).orElse fun _ => currentContext.tags }

/-- Ambient store of `AsyncLocalStorage` for the current task; `none`
when no context was established. `getContext` is `getStore()`. -/
def RequestContext.getContext (store : Option AuditContext) :
    Option AuditContext :=
  store

/-- Embedding of `RequestContext.updateContext` of
`src/request-context.ts`: the method body is empty in that file (its
only content is the comment "Implementation pending"), so the ambient
store is returned unchanged. -/
def RequestContext.updateContext (_updates : AuditContext)
    (store : Option AuditContext) : Option AuditContext :=
  store

/-- Embedding of `RequestContext.updateContext` of the sibling
request-context variant: reads the current store (defaulting to an
empty context) and replaces it via `enterWith` with the spread-merge of
the current context and the updates. -/
def RequestContextV2.updateContext (updates : AuditContext)
    (store : Option AuditContext) : Option AuditContext :=
  let currentContext := store.getD {}
  some (mergeContext currentContext updates)

/-! Helper lemmas about the snapshot operations. -/

/-- Strict equality is reflexive on the modelled values (no NaN). -/
theorem strictEq_refl (v : Value) : strictEq v v = true := by
  cases v <;> simp [strictEq]

/-- Key presence agrees with membership in the key list. -/
theorem hasKey_iff (l : Snapshot) (f : String) :
    hasKey l f = true ↔ f ∈ sKeys l := by
  simp [hasKey, sKeys]

/-- Conditional-append folds compute an appended filtered map. -/
theorem foldl_append_eq {α β : Type} (g : α → β) (p : α → Bool) :
    ∀ (l : List α) (init : List β),
      l.foldl (fun acc x => if p x then acc ++ [g x] else acc) init =
        init ++ (l.filter p).map g := by
  intro l
  induction l with
  | nil => intro init; simp
  | cons x t ih =>
      intro init
      cases hp : p x <;>
        simp [List.foldl_cons, List.filter_cons, hp, ih]

/-- Membership in the removed-fields fold of `getChangedFields`: a field
is in the result exactly when it was already accumulated or occurs in
`oldValues` without occurring in `newValues`. -/
theorem mem_removedFold (nv : Snapshot) :
    ∀ (l : Snapshot) (init : List String) (f : String),
      (f ∈ l.foldl
        (fun acc kv =>
          if ! hasKey nv kv.1 && ! acc.contains kv.1 then acc ++ [kv.1]
          else acc) init) ↔
        f ∈ init ∨ (f ∈ sKeys l ∧ hasKey nv f = false) := by
  intro l
  induction l with
  | nil => intro init f; simp [sKeys]
  | cons kv t ih =>
      intro init f
      rw [List.foldl_cons]
      cases hc : (! hasKey nv kv.1 && ! init.contains kv.1) with
      | true =>
          rw [if_pos rfl] at *
          rw [ih]
          have h1 : hasKey nv kv.1 = false := by
            have := (Bool.and_eq_true _ _).mp hc
            simpa using this.1
          constructor
          · rintro (hin | h3)
            · rcases List.mem_append.mp hin with h | h
              · exact Or.inl h
              · have : f = kv.1 := by simpa using h
                subst this
                exact Or.inr ⟨by simp [sKeys], h1⟩
            · exact Or.inr ⟨by simp [sKeys]; exact Or.inr (by simpa [sKeys] using h3.1), h3.2⟩
          · rintro (hin | h3)
            · exact Or.inl (List.mem_append.mpr (Or.inl hin))
            · rcases (by simpa [sKeys] using h3.1 : f = kv.1 ∨ f ∈ sKeys t) with h | h
              · subst h
                exact Or.inl (List.mem_append.mpr (Or.inr (by simp)))
              · exact Or.inr ⟨h, h3.2⟩
      | false =>
          rw [if_neg (by simp [hc])] at *
          rw [ih]
          have hdis : hasKey nv kv.1 = true ∨ init.contains kv.1 = true := by
            rcases Bool.and_eq_false_iff.mp hc with h | h
            · exact Or.inl (by simpa using h)
            · exact Or.inr (by simpa using h)
          constructor
          · rintro (hin | h3)
            · exact Or.inl hin
            · exact Or.inr ⟨by simp [sKeys]; exact Or.inr (by simpa [sKeys] using h3.1), h3.2⟩
          · rintro (hin | h3)
            · exact Or.inl hin
            · rcases (by simpa [sKeys] using h3.1 : f = kv.1 ∨ f ∈ sKeys t) with h | h
              · subst h
                rcases hdis with h | h
                · rw [h3.2] at h; exact absurd h (by simp)
                · exact Or.inl (List.mem_of_elem_eq_true h)
              · exact Or.inr ⟨h, h3.2⟩

/-- C2: every `writeAudit` call returns normally — a throwing storage
append is caught inside `writeAudit` and never propagates, so the
triggering business mutation still reports success. -/
theorem writeAudit_always_ok (auditModel : Option CreateFn)
    (o : WriteAuditOptions) (now : Nat) :
    ∃ r, writeAudit auditModel o now = Except.ok r := by
  cases auditModel with
  | none => exact ⟨_, rfl⟩
  | some create =>
      dsimp only [writeAudit]
      split <;> exact ⟨_, rfl⟩

/-- C10: applying the exclude-and-mask redaction twice with the same
configuration gives the same result as applying it once. -/
theorem applyExcludeAndMask_idempotent (values : Option Snapshot)
    (config : AuditConfig) :
    applyExcludeAndMask (applyExcludeAndMask values config) config =
      applyExcludeAndMask values config := by
  cases values with
  | none => rfl
  | some vs =>
      simp only [applyExcludeAndMask, Option.some.injEq]
      induction vs with
      | nil => rfl
      | cons kv t ih =>
          by_cases hx : kv.1 ∈ config.exclude
          · simpa [List.filter_cons, hx] using ih
          · by_cases hm : kv.1 ∈ config.mask
            · simpa [List.filter_cons, List.map_cons, hx, hm] using ih
            · simpa [List.filter_cons, List.map_cons, hx, hm] using ih

/-- Keys surviving redaction are exactly the non-excluded keys. -/
theorem sKeys_redacted (vs : Snapshot) (config : AuditConfig) :
    sKeys ((vs.filter (fun kv => ! config.exclude.contains kv.1)).map
      (fun kv =>
        if config.mask.contains kv.1 then (kv.1, Value.str "***MASKED***")
        else kv)) =
      (sKeys vs).filter (fun k => ! config.exclude.contains k) := by
  induction vs with
  | nil => rfl
  | cons kv t ih =>
      by_cases hx : kv.1 ∈ config.exclude
      · simpa [sKeys, List.filter_cons, hx] using ih
      · by_cases hm : kv.1 ∈ config.mask
        · simpa [sKeys, List.filter_cons, List.map_cons, hx, hm] using ih
        · simpa [sKeys, List.filter_cons, List.map_cons, hx, hm] using ih

/-- C6: a field listed both in `exclude` and in `mask` is absent from
the redacted snapshot — exclusion wins, the field never reappears with
the mask sentinel. -/
theorem exclude_wins_over_mask (vs : Snapshot) (config : AuditConfig)
    (f : String) (hx : f ∈ config.exclude) (_hm : f ∈ config.mask) :
    (applyExcludeAndMask (some vs) config).map (fun r => hasKey r f) =
      some false := by
  simp only [applyExcludeAndMask, Option.map_some']
  congr 1
  rw [← Bool.not_eq_true, hasKey_iff, sKeys_redacted]
  intro hmem
  have := List.of_mem_filter hmem
  simp at this
  exact this hx

/-- Witness for C6 at a concrete snapshot and configuration. -/
theorem exclude_wins_over_mask_witness :
    ("password" ∈ (["password"] : List String)) ∧
    (applyExcludeAndMask (some [("password", Value.str "secret")])
        { exclude := ["password"], mask := ["password"] }).map
      (fun r => hasKey r "password") = some false :=
  ⟨by decide,
   exclude_wins_over_mask [("password", Value.str "secret")]
     { exclude := ["password"], mask := ["password"] } "password"
     (by decide) (by decide)⟩

/-- Membership in the first loop of `getChangedFields`: exactly the
fields of `newValues` whose looked-up values differ strictly. -/
theorem mem_changedLoop1 (ov nv : Snapshot) (f : String) :
    (f ∈ (nv.filter
        (fun kv => ! strictEq (jsGet ov kv.1) (jsGet nv kv.1))).map
        (fun kv : String × Value => kv.1)) ↔
      (hasKey nv f = true ∧ strictEq (jsGet ov f) (jsGet nv f) = false) := by
  rw [hasKey_iff]
  simp only [List.mem_map, List.mem_filter, sKeys]
  constructor
  · rintro ⟨kv, ⟨hkv, hp⟩, rfl⟩
    exact ⟨⟨kv, hkv, rfl⟩, by simpa using hp⟩
  · rintro ⟨⟨kv, hkv, rfl⟩, hne⟩
    exact ⟨kv, ⟨hkv, by simpa using hne⟩, rfl⟩

/-- Characterisation of `getChangedFields` membership: a field is
reported exactly when it occurs in `newValues` with a strictly
different looked-up value, or occurs in `oldValues` but not in
`newValues`. -/
theorem mem_getChangedFields (ov nv : Snapshot) (f : String) :
    f ∈ getChangedFields ov nv ↔
      (hasKey nv f = true ∧ strictEq (jsGet ov f) (jsGet nv f) = false) ∨
      (hasKey ov f = true ∧ hasKey nv f = false) := by
  unfold getChangedFields
  rw [mem_removedFold]
  rw [foldl_append_eq (fun kv : String × Value => kv.1)
    (fun kv => ! strictEq (jsGet ov kv.1) (jsGet nv kv.1)) nv []]
  rw [List.nil_append, mem_changedLoop1, ← hasKey_iff]

/-- Snapshots with pointwise strictly-equal lookups and identical key
presence have no changed fields. -/
theorem getChangedFields_eq_nil (ov nv : Snapshot)
    (h1 : ∀ f, strictEq (jsGet ov f) (jsGet nv f) = true)
    (h2 : ∀ f, hasKey ov f = hasKey nv f) :
    getChangedFields ov nv = [] := by
  rw [List.eq_nil_iff_forall_not_mem]
  intro f hf
  rcases (mem_getChangedFields ov nv f).mp hf with ⟨_, hne⟩ | ⟨ho, hn⟩
  · rw [h1 f] at hne
    cases hne
  · rw [h2 f, hn] at ho
    cases ho

/-- C4 counterexample: the snapshots `\x7b\x7d` and
`\x7b a: undefined \x7d` have the field `a` in exactly one of the two,
yet `getChangedFields` reports nothing, because the property read of a
missing key is also `undefined` and the two reads are strictly equal. -/
theorem undef_only_in_new_cex :
    hasKey ([] : Snapshot) "a" = false ∧
    hasKey [("a", Value.undef)] "a" = true ∧
    getChangedFields [] [("a", Value.undef)] = [] ∧
    ¬ "a" ∈ getChangedFields [] [("a", Value.undef)] :=
  ⟨rfl, rfl, by decide, by decide⟩

/-- C4 amended: a field name is included exactly when it occurs in the
new snapshot with a value that differs by strict inequality from the
(possibly `undefined`) value read from the old snapshot, or it occurs
in the old snapshot and not in the new one; so a field present only in
the old snapshot is always reported, while a field present only in the
new snapshot is reported only when its value is not `undefined`. -/
theorem changed_field_reported_iff (ov nv : Snapshot) (f : String) :
    f ∈ getChangedFields ov nv ↔
      (hasKey nv f = true ∧ strictEq (jsGet ov f) (jsGet nv f) = false) ∨
      (hasKey ov f = true ∧ hasKey nv f = false) :=
  mem_getChangedFields ov nv f

/-- C5 counterexample: two snapshots that are structurally identical
(same single key, structurally equal nested object values) but whose
nested objects are distinct references produce a non-empty diff, since
`!==` compares objects by reference. -/
theorem structural_identity_diff_cex :
    fieldsStructEq [("a", Value.obj 0 [])] [("a", Value.obj 1 [])] = true ∧
    getChangedFields [("a", Value.obj 0 [])] [("a", Value.obj 1 [])] = ["a"] ∧
    getChangedFields [("a", Value.obj 0 [])] [("a", Value.obj 1 [])] ≠ [] :=
  ⟨by decide, by decide, by decide⟩

/-- C5 amended: when the two snapshots agree on key presence and every
per-key property read is strictly equal (primitives by value, objects
by reference — structural equality of distinct nested objects is not
enough), the diff is empty. -/
theorem diff_empty_of_strict_identical (ov nv : Snapshot)
    (h1 : ∀ f, strictEq (jsGet ov f) (jsGet nv f) = true)
    (h2 : ∀ f, hasKey ov f = hasKey nv f) :
    getChangedFields ov nv = [] :=
  getChangedFields_eq_nil ov nv h1 h2

/-- Witness for the amended C5 at a concrete snapshot pair. -/
theorem diff_empty_of_strict_identical_witness :
    getChangedFields [("a", Value.num 1)] [("a", Value.num 1)] = [] :=
  diff_empty_of_strict_identical [("a", Value.num 1)] [("a", Value.num 1)]
    (fun _ => strictEq_refl _) (fun _ => rfl)

/-- Unfolding of `pickFields` as a filtered map over the field list. -/
theorem pickFields_eq (v : Snapshot) (fields : List String) :
    pickFields v fields =
      (fields.filter (fun f => hasKey v f)).map (fun f => (f, jsGet v f)) := by
  unfold pickFields
  rw [foldl_append_eq (fun f => (f, jsGet v f)) (fun f => hasKey v f) fields []]
  rw [List.nil_append]

/-- Keys kept by `pickFields` are the listed fields present in `v`. -/
theorem sKeys_pickFields (v : Snapshot) (fields : List String) :
    sKeys (pickFields v fields) = fields.filter (fun f => hasKey v f) := by
  rw [pickFields_eq]
  show ((fields.filter (fun f => hasKey v f)).map
    (fun f => (f, jsGet v f))).map Prod.fst = _
  rw [List.map_map]
  exact List.map_id _

/-- Redaction of a present snapshot, spelled out. -/
theorem applyExcludeAndMask_some (vs : Snapshot) (config : AuditConfig) :
    applyExcludeAndMask (some vs) config =
      some ((vs.filter (fun kv => ! config.exclude.contains kv.1)).map
        (fun kv =>
          if config.mask.contains kv.1 then (kv.1, Value.str "***MASKED***")
          else kv)) := rfl

/-- In dirty-only mode with both snapshots present, each output of
`processValues` is present and its key list is the changed-field list
restricted to the keys that snapshot actually has, minus excluded
keys (the no-change branch is the empty instance of the same formula). -/
theorem processValues_dirty_keys (ov nv : Snapshot) (config : AuditConfig)
    (g : Option AuditModuleOptions)
    (hd : effectiveOnlyDirty config g = true) :
    ((processValues (some ov) (some nv) config g).1).map sKeys =
      some (((getChangedFields ov nv).filter (fun f => hasKey ov f)).filter
        (fun k => ! config.exclude.contains k)) ∧
    ((processValues (some ov) (some nv) config g).2).map sKeys =
      some (((getChangedFields ov nv).filter (fun f => hasKey nv f)).filter
        (fun k => ! config.exclude.contains k)) := by
  simp only [processValues, hd, if_true]
  by_cases hl : (getChangedFields ov nv).length > 0
  · simp only [if_pos hl, applyExcludeAndMask_some, Option.map_some']
    rw [sKeys_redacted, sKeys_redacted, sKeys_pickFields, sKeys_pickFields]
    exact ⟨rfl, rfl⟩
  · have hnil : getChangedFields ov nv = [] := by
      cases h : getChangedFields ov nv with
      | nil => rfl
      | cons x t => rw [h] at hl; simp at hl
    simp [if_neg hl, applyExcludeAndMask_some, hnil, sKeys]

/-- C1 counterexample: with dirty-only active and an update supplying
old `\x7b\x7d` and new `\x7b a: 1 \x7d`, the persisted snapshots are
`\x7b\x7d` and `\x7b a: 1 \x7d`: their key sets differ and they are not
both empty, because the changed field `a` exists only in the new
snapshot and `pickFields` drops it from the old side. -/
theorem dirty_keyset_mismatch_cex :
    effectiveOnlyDirty { onlyDirty := some true } none = true ∧
    (entryOf (writeAudit (some (fun _ => Except.ok ()))
        { event := AuditEvent.UPDATED
          table := "users"
          recordId := Value.num 1
          oldValues := some []
          newValues := some [("a", Value.num 1)]
          config := some { onlyDirty := some true } } 0)).map
      (fun e => (e.oldValues.map sKeys, e.newValues.map sKeys)) =
      some (some [], some ["a"]) ∧
    (some ([] : List String)) ≠ some ["a"] :=
  ⟨rfl, rfl, by decide⟩

/-- C1 amended: in dirty-only mode an updated entry's persisted key
sets are, on each side, the changed-field list restricted to the keys
that snapshot actually has, minus excluded keys; consequently, whenever
every changed field is present in both snapshots — in particular
whenever the old and new snapshots have the same key presence, as
Sequelize's before/after snapshots of an update do — the persisted old
and new snapshots contain exactly the same key set (both empty when no
field changed). -/
theorem updated_entry_same_keyset (auditModel : Option CreateFn)
    (tbl : String) (rid : Value) (ov nv : Snapshot)
    (ctx : Option AuditContext) (config : AuditConfig)
    (g : Option AuditModuleOptions) (now : Nat)
    (hd : effectiveOnlyDirty config g = true) :
    ((entryOf (writeAudit auditModel
        { event := AuditEvent.UPDATED
          table := tbl
          recordId := rid
          oldValues := some ov
          newValues := some nv
          context := ctx
          config := some config
          globalConfig := g } now)).map
      (fun e => e.oldValues.map sKeys) =
      (entryOf (writeAudit auditModel
        { event := AuditEvent.UPDATED
          table := tbl
          recordId := rid
          oldValues := some ov
          newValues := some nv
          context := ctx
          config := some config
          globalConfig := g } now)).map
      (fun _ => some (((getChangedFields ov nv).filter
        (fun f => hasKey ov f)).filter
        (fun k => ! config.exclude.contains k)))) ∧
    ((entryOf (writeAudit auditModel
        { event := AuditEvent.UPDATED
          table := tbl
          recordId := rid
          oldValues := some ov
          newValues := some nv
          context := ctx
          config := some config
          globalConfig := g } now)).map
      (fun e => e.newValues.map sKeys) =
      (entryOf (writeAudit auditModel
        { event := AuditEvent.UPDATED
          table := tbl
          recordId := rid
          oldValues := some ov
          newValues := some nv
          context := ctx
          config := some config
          globalConfig := g } now)).map
      (fun _ => some (((getChangedFields ov nv).filter
        (fun f => hasKey nv f)).filter
        (fun k => ! config.exclude.contains k)))) ∧
    ((∀ f ∈ getChangedFields ov nv,
        hasKey ov f = true ∧ hasKey nv f = true) →
      (entryOf (writeAudit auditModel
        { event := AuditEvent.UPDATED
          table := tbl
          recordId := rid
          oldValues := some ov
          newValues := some nv
          context := ctx
          config := some config
          globalConfig := g } now)).map
        (fun e => e.oldValues.map sKeys) =
        (entryOf (writeAudit auditModel
          { event := AuditEvent.UPDATED
            table := tbl
            recordId := rid
            oldValues := some ov
            newValues := some nv
            context := ctx
            config := some config
            globalConfig := g } now)).map
        (fun e => e.newValues.map sKeys)) := by
  obtain ⟨h1, h2⟩ := processValues_dirty_keys ov nv config g hd
  cases auditModel with
  | none => exact ⟨rfl, rfl, fun _ => rfl⟩
  | some create =>
      dsimp only [writeAudit, Option.getD]
      split <;>
        refine ⟨by simp only [entryOf, Option.map_some', h1],
          by simp only [entryOf, Option.map_some', h2],
          fun hprov => ?_⟩ <;>
        · have hfil : (getChangedFields ov nv).filter (fun f => hasKey ov f) =
              (getChangedFields ov nv).filter (fun f => hasKey nv f) :=
            List.filter_congr fun f hf => by
              rw [(hprov f hf).1, (hprov f hf).2]
          simp only [entryOf, Option.map_some', h1, h2, hfil]

/-- Witness for the amended C1 at the spec's own example update. -/
theorem updated_entry_same_keyset_witness :
    effectiveOnlyDirty { onlyDirty := some true } none = true ∧
    (entryOf (writeAudit (some (fun _ => Except.ok ()))
        { event := AuditEvent.UPDATED
          table := "users"
          recordId := Value.num 1
          oldValues := some [("name", Value.str "A"), ("phone", Value.str "1")]
          newValues := some [("name", Value.str "B"), ("phone", Value.str "1")]
          config := some { onlyDirty := some true } } 0)).map
      (fun e => e.oldValues.map sKeys) =
      (entryOf (writeAudit (some (fun _ => Except.ok ()))
        { event := AuditEvent.UPDATED
          table := "users"
          recordId := Value.num 1
          oldValues := some [("name", Value.str "A"), ("phone", Value.str "1")]
          newValues := some [("name", Value.str "B"), ("phone", Value.str "1")]
          config := some { onlyDirty := some true } } 0)).map
      (fun e => e.newValues.map sKeys) :=
  ⟨rfl,
   (updated_entry_same_keyset (some (fun _ => Except.ok ())) "users"
     (Value.num 1)
     [("name", Value.str "A"), ("phone", Value.str "1")]
     [("name", Value.str "B"), ("phone", Value.str "1")]
     none { onlyDirty := some true } none 0 rfl).2.2 (by decide)⟩

/-- C7: with dirty-only active, identical key presence and pointwise
strictly-equal values, the writer still persists an entry whose old and
new snapshots are empty objects (present, not omitted) and whose event
kind is still `updated`. -/
theorem dirty_no_change_empty_objects (create : CreateFn) (tbl : String)
    (rid : Value) (ov nv : Snapshot) (ctx : Option AuditContext)
    (config : AuditConfig) (g : Option AuditModuleOptions) (now : Nat)
    (hd : effectiveOnlyDirty config g = true)
    (hs : ∀ f, strictEq (jsGet ov f) (jsGet nv f) = true)
    (hk : ∀ f, hasKey ov f = hasKey nv f) :
    (entryOf (writeAudit (some create)
        { event := AuditEvent.UPDATED
          table := tbl
          recordId := rid
          oldValues := some ov
          newValues := some nv
          context := ctx
          config := some config
          globalConfig := g } now)).map
      (fun e => (e.oldValues, e.newValues, e.event)) =
      some (some [], some [], AuditEvent.UPDATED) := by
  have hnil := getChangedFields_eq_nil ov nv hs hk
  have hpv : processValues (some ov) (some nv) config g =
      (some [], some []) := by
    simp [processValues, hd, hnil, applyExcludeAndMask]
  dsimp only [writeAudit, Option.getD]
  rw [hpv]
  split <;> rfl

/-- Witness for C7 at a concrete no-change update. -/
theorem dirty_no_change_empty_objects_witness :
    effectiveOnlyDirty { onlyDirty := some true } none = true ∧
    (entryOf (writeAudit (some (fun _ => Except.ok ()))
        { event := AuditEvent.UPDATED
          table := "users"
          recordId := Value.num 1
          oldValues := some [("name", Value.str "A")]
          newValues := some [("name", Value.str "A")]
          config := some { onlyDirty := some true } } 0)).map
      (fun e => (e.oldValues, e.newValues, e.event)) =
      some (some [], some [], AuditEvent.UPDATED) :=
  ⟨rfl,
   dirty_no_change_empty_objects (fun _ => Except.ok ()) "users"
     (Value.num 1) [("name", Value.str "A")] [("name", Value.str "A")]
     none { onlyDirty := some true } none 0 rfl
     (fun _ => strictEq_refl _) (fun _ => rfl)⟩

/-- Shape check for created/restored entries: old snapshot absent, new
snapshot present (vacuously true when nothing was written). -/
def oldAbsentNewPresent (r : Option AuditEntry) : Bool :=
  match r with
  | none => true
  | some e => e.oldValues.isNone && e.newValues.isSome

/-- Shape check for deleted entries: old snapshot present, new snapshot
absent (vacuously true when nothing was written). -/
def oldPresentNewAbsent (r : Option AuditEntry) : Bool :=
  match r with
  | none => true
  | some e => e.oldValues.isSome && e.newValues.isNone

/-- With no old snapshot supplied, `processValues` forwards an absent
old side and a present, redacted new side. -/
theorem processValues_none_left (nv : Snapshot) (config : AuditConfig)
    (g : Option AuditModuleOptions) :
    processValues none (some nv) config g =
      (none, applyExcludeAndMask (some nv) config) := rfl

/-- With no new snapshot supplied, `processValues` forwards a present,
redacted old side and an absent new side. -/
theorem processValues_none_right (ov : Snapshot) (config : AuditConfig)
    (g : Option AuditModuleOptions) :
    processValues (some ov) none config g =
      (applyExcludeAndMask (some ov) config, none) := rfl

/-- C3: every entry written by the lifecycle hooks satisfies the
event-kind/snapshot-shape invariant — `created` and `restored` entries
carry only a new snapshot, `deleted` entries carry only an old
snapshot. -/
theorem hooks_snapshot_shape_invariant (auditModel : Option CreateFn)
    (tableName : String) (config : AuditConfig)
    (gopts : AuditModuleOptions) (inst : InstanceData)
    (ctx : Option AuditContext) (now : Nat) :
    oldAbsentNewPresent (writtenEntry
      (afterCreateHook auditModel tableName config gopts inst ctx now)) =
      true ∧
    oldAbsentNewPresent (writtenEntry
      (afterRestoreHook auditModel tableName config gopts inst ctx now)) =
      true ∧
    oldPresentNewAbsent (writtenEntry
      (afterDestroyHook auditModel tableName config gopts inst ctx now)) =
      true := by
  refine ⟨?_, ?_, ?_⟩
  · unfold afterCreateHook
    cases hb : shouldAuditEvent AuditEvent.CREATED config
    · simp [hb, writtenEntry, oldAbsentNewPresent]
    · cases auditModel with
      | none => simp [hb, writeAudit, writtenEntry, oldAbsentNewPresent]
      | some create =>
          simp only [hb, Bool.not_true, Bool.false_eq_true, if_false]
          dsimp only [writeAudit, Option.getD]
          rw [processValues_none_left, applyExcludeAndMask_some]
          split <;> rename_i heq <;>
            (split at heq <;> cases heq <;>
              simp [writtenEntry, oldAbsentNewPresent])
  · unfold afterRestoreHook
    cases hb : shouldAuditEvent AuditEvent.RESTORED config
    · simp [hb, writtenEntry, oldAbsentNewPresent]
    · cases auditModel with
      | none => simp [hb, writeAudit, writtenEntry, oldAbsentNewPresent]
      | some create =>
          simp only [hb, Bool.not_true, Bool.false_eq_true, if_false]
          dsimp only [writeAudit, Option.getD]
          rw [processValues_none_left, applyExcludeAndMask_some]
          split <;> rename_i heq <;>
            (split at heq <;> cases heq <;>
              simp [writtenEntry, oldAbsentNewPresent])
  · unfold afterDestroyHook
    cases hb : shouldAuditEvent AuditEvent.DELETED config
    · simp [hb, writtenEntry, oldPresentNewAbsent]
    · cases auditModel with
      | none => simp [hb, writeAudit, writtenEntry, oldPresentNewAbsent]
      | some create =>
          simp only [hb, Bool.not_true, Bool.false_eq_true, if_false]
          dsimp only [writeAudit, Option.getD]
          rw [processValues_none_right, applyExcludeAndMask_some]
          split <;> rename_i heq <;>
            (split at heq <;> cases heq <;>
              simp [writtenEntry, oldPresentNewAbsent])

/-- With a configured non-empty `auditEvents` list, the gate is exactly
list membership. -/
theorem shouldAuditEvent_restricted (ev : AuditEvent)
    (evs : List AuditEvent) (config : AuditConfig)
    (hcfg : config.auditEvents = some evs) (hne : evs ≠ []) :
    shouldAuditEvent ev config = evs.contains ev := by
  cases evs with
  | nil => cases hne rfl
  | cons x t => simp [shouldAuditEvent, hcfg]

/-- With `auditEvents` unset or empty, the gate always passes. -/
theorem shouldAuditEvent_default (ev : AuditEvent) (config : AuditConfig)
    (h : config.auditEvents = none ∨ config.auditEvents = some []) :
    shouldAuditEvent ev config = true := by
  rcases h with h | h <;> simp [shouldAuditEvent, h]

/-- With a configured model whose create always succeeds, `writeAudit`
reports a written entry. -/
theorem writeAudit_written_of_ok (create : CreateFn)
    (hok : ∀ e, create e = Except.ok ()) (o : WriteAuditOptions)
    (now : Nat) :
    ∃ e, writeAudit (some create) o now =
      Except.ok (WriteOutcome.written e) := by
  dsimp only [writeAudit]
  rw [hok]
  exact ⟨_, rfl⟩

/-- Generic shape of every hook body: an entry is written exactly when
the gate passes (given an always-succeeding storage append). -/
theorem hookWrites_iff (create : CreateFn)
    (hok : ∀ e, create e = Except.ok ()) (gate : Bool)
    (o : WriteAuditOptions) (now : Nat) :
    (writtenEntry (if ! gate then Except.ok none
      else
        match writeAudit (some create) o now with
        | Except.ok r => Except.ok (some r)
        | Except.error e => Except.error e)).isSome = gate := by
  cases gate with
  | false => simp [writtenEntry]
  | true =>
      obtain ⟨e, he⟩ := writeAudit_written_of_ok create hok o now
      simp [he, writtenEntry]

/-- C8 counterexample: with the configured restricted event-kind set
being the empty list, the bound `afterCreate` callback still writes an
audit entry although `created` is not a member of that set — the code
treats an empty list like no restriction at all. -/
theorem empty_auditEvents_cex :
    shouldAuditEvent AuditEvent.CREATED { auditEvents := some [] } = true ∧
    (writtenEntry (afterCreateHook (some (fun _ => Except.ok ())) "users"
        { auditEvents := some [] } {}
        { id := Value.num 1
          dataValues := [("name", Value.str "John")]
          previousDataValues := [] } none 0)).isSome = true ∧
    (([] : List AuditEvent).contains AuditEvent.CREATED) = false :=
  ⟨rfl, rfl, rfl⟩

/-- C8 amended: when the configured event-kind set is non-empty, each
bound callback writes an audit entry exactly when its event kind is a
member of the set; when no restriction is configured — or the
configured list is empty, which the code treats the same way — all four
event kinds are audited. -/
theorem audit_event_gating (create : CreateFn) (tbl : String)
    (config config2 : AuditConfig) (gopts : AuditModuleOptions)
    (inst : InstanceData) (ctx : Option AuditContext) (now : Nat)
    (evs : List AuditEvent)
    (hok : ∀ e, create e = Except.ok ())
    (hcfg : config.auditEvents = some evs) (hne : evs ≠ [])
    (hdef : config2.auditEvents = none ∨ config2.auditEvents = some []) :
    ((writtenEntry (afterCreateHook (some create) tbl config gopts inst
        ctx now)).isSome = evs.contains AuditEvent.CREATED) ∧
    ((writtenEntry (afterUpdateHook (some create) tbl config gopts inst
        ctx now)).isSome = evs.contains AuditEvent.UPDATED) ∧
    ((writtenEntry (afterDestroyHook (some create) tbl config gopts inst
        ctx now)).isSome = evs.contains AuditEvent.DELETED) ∧
    ((writtenEntry (afterRestoreHook (some create) tbl config gopts inst
        ctx now)).isSome = evs.contains AuditEvent.RESTORED) ∧
    ((writtenEntry (afterCreateHook (some create) tbl config2 gopts inst
        ctx now)).isSome = true) ∧
    ((writtenEntry (afterUpdateHook (some create) tbl config2 gopts inst
        ctx now)).isSome = true) ∧
    ((writtenEntry (afterDestroyHook (some create) tbl config2 gopts inst
        ctx now)).isSome = true) ∧
    ((writtenEntry (afterRestoreHook (some create) tbl config2 gopts inst
        ctx now)).isSome = true) := by
  refine ⟨?_, ?_, ?_, ?_, ?_, ?_, ?_, ?_⟩
  · exact (hookWrites_iff create hok _ _ now).trans
      (shouldAuditEvent_restricted AuditEvent.CREATED evs config hcfg hne)
  · exact (hookWrites_iff create hok _ _ now).trans
      (shouldAuditEvent_restricted AuditEvent.UPDATED evs config hcfg hne)
  · exact (hookWrites_iff create hok _ _ now).trans
      (shouldAuditEvent_restricted AuditEvent.DELETED evs config hcfg hne)
  · exact (hookWrites_iff create hok _ _ now).trans
      (shouldAuditEvent_restricted AuditEvent.RESTORED evs config hcfg hne)
  · exact (hookWrites_iff create hok _ _ now).trans
      (shouldAuditEvent_default AuditEvent.CREATED config2 hdef)
  · exact (hookWrites_iff create hok _ _ now).trans
      (shouldAuditEvent_default AuditEvent.UPDATED config2 hdef)
  · exact (hookWrites_iff create hok _ _ now).trans
      (shouldAuditEvent_default AuditEvent.DELETED config2 hdef)
  · exact (hookWrites_iff create hok _ _ now).trans
      (shouldAuditEvent_default AuditEvent.RESTORED config2 hdef)

/-- Witness for the amended C8 at a concrete restricted configuration
auditing only `created`. -/
theorem audit_event_gating_witness :
    (({ auditEvents := some [AuditEvent.CREATED] } : AuditConfig).auditEvents
      = some [AuditEvent.CREATED]) ∧
    ((writtenEntry (afterCreateHook (some (fun _ => Except.ok ())) "users"
        { auditEvents := some [AuditEvent.CREATED] } {}
        { id := Value.num 1
          dataValues := [("name", Value.str "John")]
          previousDataValues := [] } none 0)).isSome =
      [AuditEvent.CREATED].contains AuditEvent.CREATED) ∧
    ((writtenEntry (afterUpdateHook (some (fun _ => Except.ok ())) "users"
        { auditEvents := some [AuditEvent.CREATED] } {}
        { id := Value.num 1
          dataValues := [("name", Value.str "John")]
          previousDataValues := [] } none 0)).isSome =
      [AuditEvent.CREATED].contains AuditEvent.UPDATED) ∧
    ((writtenEntry (afterRestoreHook (some (fun _ => Except.ok ())) "users"
        ({} : AuditConfig) {}
        { id := Value.num 1
          dataValues := [("name", Value.str "John")]
          previousDataValues := [] } none 0)).isSome = true) :=
  have h := audit_event_gating (fun _ => Except.ok ()) "users"
    { auditEvents := some [AuditEvent.CREATED] } {} {}
    { id := Value.num 1
      dataValues := [("name", Value.str "John")]
      previousDataValues := [] } none 0 [AuditEvent.CREATED]
    (fun _ => rfl) rfl (by decide) (Or.inl rfl)
  ⟨rfl, h.1, h.2.1, h.2.2.2.2.2.2.2⟩

/-- C9 evaluation at the failing input: in the request-context variant
whose `updateContext` body is empty ("Implementation pending"), calling
`updateContext` with a partial context carrying an origin address
leaves the stored context unchanged, so a subsequent `getContext` still
returns a context without that address — while the sibling variant's
`updateContext` produces exactly the merge the specification describes
(new field taken from the update, existing actor field preserved). -/
theorem updateContext_stub_divergence :
    RequestContext.getContext (RequestContext.updateContext
        { ip := some "2.2.2.2" } (some { actorId := some (Value.str "1") })) =
      some { actorId := some (Value.str "1") } ∧
    (RequestContext.getContext (RequestContext.updateContext
        { ip := some "2.2.2.2" }
        (some { actorId := some (Value.str "1") }))).bind
      AuditContext.ip = none ∧
    (RequestContextV2.updateContext { ip := some "2.2.2.2" }
        (some { actorId := some (Value.str "1") })).bind
      AuditContext.ip = some "2.2.2.2" ∧
    (RequestContextV2.updateContext { ip := some "2.2.2.2" }
        (some { actorId := some (Value.str "1") })).bind
      AuditContext.actorId = some (Value.str "1") :=
  ⟨rfl, rfl, rfl, rfl⟩
